import Mathlib

/-!
# Verification of `sklearn_questions.py`

Shallow embedding of the two components of the repository:

* `KNearestNeighbors` — a nearest-neighbor classifier with `fit`, `predict`
  and `score` (source lines 66–143).
* `MonthlySplit` — a cross-validation splitter with `get_n_splits` and
  `split` (source lines 146–212).

Python floats and labels are modelled as rationals, numpy matrices as lists
of rows, pandas tables as an index list plus named columns.  Fallible Python
code is modelled in the `Except` monad; the error constructors mirror the
Python exception classes that can be raised.

Attribute access on the classifier instance is modelled explicitly, because
the source only ever assigns the attributes `n_neighbors`, `X_train_` and
`y_train_` (lines 70, 88, 89) while `predict` consults the attribute names
`y_test_` (line 105) and `y_train` (line 115), which are never assigned.
-/

inductive PyError where
  | notFitted
  | valueError
  | attributeError
  | indexError
  | natError
deriving DecidableEq

/-! ## KNearestNeighbors (source lines 66–143) -/

structure KNearestNeighbors where
  n_neighbors : Nat
  X_train_ : Option (List (List Rat)) := none
  y_train_ : Option (List Rat) := none
deriving DecidableEq

/-- Python `hasattr` on a `KNearestNeighbors` instance: the constructor sets
`n_neighbors`, and `fit` (lines 88–89) is the only method assigning
attributes, namely `X_train_` and `y_train_`.  Every other name is absent. -/
def KNearestNeighbors.hasattr (m : KNearestNeighbors) (a : String) : Bool :=
  if a = "n_neighbors" then true
  else if a = "X_train_" then m.X_train_.isSome
  else if a = "y_train_" then m.y_train_.isSome
  else false

/-- `sklearn.utils.validation.check_is_fitted(estimator, attributes)`: with an
explicit attribute list it raises `NotFittedError` unless all the listed
attributes are present on the instance. -/
def check_is_fitted (m : KNearestNeighbors) (attrs : List String) :
    Except PyError Unit :=
  if attrs.all m.hasattr then .ok () else .error .notFitted

/-- Well-formedness enforced by `check_array` on a 2d input: at least one
sample, at least one feature, rectangular. -/
def isMatrix (X : List (List Rat)) : Bool :=
  decide (X ≠ []) &&
    X.all (fun r => decide (r.length = (X.headD []).length) && decide (r.length ≠ 0))

/-- `sklearn.utils.validation.check_array` (numeric 2d input). -/
def check_array (X : List (List Rat)) : Except PyError (List (List Rat)) :=
  if isMatrix X then .ok X else .error .valueError

/-- `sklearn.utils.validation.check_X_y`: validates the matrix and the
matching-length target vector. -/
def check_X_y (X : List (List Rat)) (y : List Rat) :
    Except PyError (List (List Rat) × List Rat) :=
  if isMatrix X && decide (y.length = X.length) then .ok (X, y)
  else .error .valueError

/-- Labels acceptable to `check_classification_targets`: a nonempty target
vector whose numeric values are integer-valued (non-integer floats are of
`continuous` type and are rejected). -/
def targetsOk (y : List Rat) : Bool :=
  decide (y ≠ []) && y.all (fun q => decide (q.den = 1))

/-- `sklearn.utils.multiclass.check_classification_targets`. -/
def check_classification_targets (y : List Rat) : Except PyError Unit :=
  if targetsOk y then .ok () else .error .valueError

/-- `fit` (lines 72–90): validate, then store the training data in the
attributes `X_train_` and `y_train_` and return the instance. -/
def KNearestNeighbors.fit (m : KNearestNeighbors) (X : List (List Rat))
    (y : List Rat) : Except PyError KNearestNeighbors := do
  let (X, y) ← check_X_y X y
  pure { m with X_train_ := some X, y_train_ := some y }

/-- Reading a matrix-valued attribute (`self.X_train_`); any name that is not
an assigned attribute raises `AttributeError`. -/
def KNearestNeighbors.getattrMatrix (m : KNearestNeighbors) (a : String) :
    Except PyError (List (List Rat)) :=
  if a = "X_train_" then
    match m.X_train_ with
    | some v => .ok v
    | none => .error .attributeError
  else .error .attributeError

/-- Reading a label-vector attribute; `fit` assigns `y_train_` only, so any
other name (in particular `y_train`, line 115) raises `AttributeError`. -/
def KNearestNeighbors.getattrLabels (m : KNearestNeighbors) (a : String) :
    Except PyError (List Rat) :=
  if a = "y_train_" then
    match m.y_train_ with
    | some v => .ok v
    | none => .error .attributeError
  else .error .attributeError

/-- Squared Euclidean distance between two feature rows.  `pairwise_distances`
returns the Euclidean distance; since the only use of the distances is
`argsort`, which is invariant under the monotone square root, the squared
distance keeps the embedding inside the rationals. -/
def sqdist (u v : List Rat) : Rat :=
  (List.zipWith (fun a b => (a - b) ^ 2) u v).sum

/-- `np.argsort` over a distance row: the positions `0..n-1` sorted by their
distance value (stable). -/
def argsortQ (ds : List Rat) : List Nat :=
  List.insertionSort (fun i j => ds.getD i 0 ≤ ds.getD j 0) (List.range ds.length)

/-- Order-of-first-appearance insertion used by `Counter` /
`pandas.Series.unique`. -/
def insertUnique {α : Type} [DecidableEq α] (acc : List α) (a : α) : List α :=
  if a ∈ acc then acc else acc ++ [a]

/-- Distinct values of a list in order of first appearance. -/
def orderedUnique {α : Type} [DecidableEq α] (l : List α) : List α :=
  l.foldl insertUnique []

/-- `Counter(ks).most_common(1)`: the most frequent value, ties resolved in
favour of first insertion order; `none` on an empty list. -/
def most_common1 (ks : List Rat) : Option Rat :=
  (orderedUnique ks).foldl
    (fun acc q =>
      match acc with
      | none => some q
      | some b => if ks.count b < ks.count q then some q else some b)
    none

/-- Python `int()` on a rational value: truncation toward zero. -/
def ratTrunc (q : Rat) : Int :=
  if 0 ≤ q then ⌊q⌋ else ⌈q⌉

/-- `predict` (lines 92–121).  Line 105 checks the fitted state against the
attribute names `X_train_` and `y_test_`; line 115 reads `self.y_train`.
Neither `y_test_` nor `y_train` is ever assigned by the class. -/
def KNearestNeighbors.predict (m : KNearestNeighbors) (X : List (List Rat)) :
    Except PyError (List Rat) := do
  check_is_fitted m ["X_train_", "y_test_"]
  let X ← check_array X
  let Xtr ← m.getattrMatrix "X_train_"
  let distances := X.map (fun x => Xtr.map (fun t => sqdist x t))
  let N := X.length
  let ys ← (List.range N).mapM (fun n => do
    let nearest_neighbors := (argsortQ (distances.getD n [])).take m.n_neighbors
    let ytr ← m.getattrLabels "y_train"
    let k_nearest_labels := nearest_neighbors.map (fun i => ytr.getD i 0)
    match most_common1 k_nearest_labels with
    | some q => pure ((ratTrunc q : Int) : Rat)
    | none => Except.error PyError.indexError)
  pure ys

/-- `sklearn.metrics.accuracy_score`: the fraction of positions where the
prediction equals the target. -/
def accuracy_score (ytrue ypred : List Rat) : Rat :=
  (List.zipWith (fun a b => if a = b then (1 : Rat) else 0) ytrue ypred).sum
    / (ytrue.length : Rat)

/-- `score` (lines 123–143): validate the inputs, predict, then return the
accuracy. -/
def KNearestNeighbors.score (m : KNearestNeighbors) (X : List (List Rat))
    (y : List Rat) : Except PyError Rat := do
  let X ← check_array X
  check_classification_targets y
  let y_pred ← m.predict X
  pure (accuracy_score y y_pred)

/-! ## Theorems about `KNearestNeighbors` -/

/-- C1: fitting a classifier with `k = 1` on the training point `[0]` with
label `7` succeeds and stores the data, but `predict` on the very training
point then raises the not-fitted error rather than returning the label `7`:
the fitted-state check at line 105 requires the attribute `y_test_`, which
`fit` never assigns (it assigns `y_train_`), so the check can never pass. -/
theorem C1_predict_after_fit_raises :
    (KNearestNeighbors.mk 1 none none).fit [[0]] [7]
        = .ok (KNearestNeighbors.mk 1 (some [[0]]) (some [7]))
      ∧ (KNearestNeighbors.mk 1 (some [[0]]) (some [7])).predict [[0]]
        = .error .notFitted
      ∧ (KNearestNeighbors.mk 1 (some [[0]]) (some [7])).hasattr "y_test_"
        = false := by
  refine ⟨rfl, rfl, by decide⟩

/-- C5: on a classifier that has not been fit, both `predict` and `score`
raise the not-fitted error for every well-formed input: `predict` checks the
fitted state first, and `score`, after its input validation succeeds, calls
`predict`. -/
theorem C5_unfitted_predict_and_score_raise (k : Nat) (X : List (List Rat))
    (y : List Rat) (hX : isMatrix X = true) (hy : targetsOk y = true) :
    (KNearestNeighbors.mk k none none).predict X = .error .notFitted
      ∧ (KNearestNeighbors.mk k none none).score X y = .error .notFitted := by
  constructor
  · rfl
  · simp only [KNearestNeighbors.score, check_array, hX, if_true,
      check_classification_targets, hy]
    rfl

theorem C5_unfitted_predict_and_score_raise_witness :
    (isMatrix [[(0 : Rat)]] = true ∧ targetsOk [(0 : Rat)] = true)
      ∧ ((KNearestNeighbors.mk 2 none none).predict [[(0 : Rat)]]
            = .error .notFitted
          ∧ (KNearestNeighbors.mk 2 none none).score [[(0 : Rat)]] [(0 : Rat)]
            = .error .notFitted) :=
  ⟨⟨by decide, by decide⟩,
    C5_unfitted_predict_and_score_raise 2 [[(0 : Rat)]] [(0 : Rat)]
      (by decide) (by decide)⟩

/-- C6: on a fitted classifier (training data stored in `X_train_` and
`y_train_`), `score` does not return the matching fraction `1` on the
training data itself; it raises the not-fitted error, because the `predict`
it calls checks the fitted state against the never-assigned attribute
`y_test_`. -/
theorem C6_score_on_fitted_raises :
    (KNearestNeighbors.mk 1 (some [[0]]) (some [7])).score [[0]] [7]
      = .error .notFitted := rfl

/-- C10: on a fitted classifier with the non-integer numeric label `1/2`,
`predict` never returns the truncated float vector: it raises the not-fitted
error at line 105, and even the loop body could not produce it, since line
115 reads the attribute `y_train`, which `fit` never assigns (it assigns
`y_train_`), so that read raises `AttributeError`. -/
theorem C10_predict_never_returns_coerced_vector :
    (KNearestNeighbors.mk 1 (some [[0]]) (some [1 / 2])).predict [[0]]
        = .error .notFitted
      ∧ (KNearestNeighbors.mk 1 (some [[0]]) (some [1 / 2])).getattrLabels
          "y_train" = .error .attributeError := by
  refine ⟨rfl, rfl⟩

/-! ## MonthlySplit (source lines 146–212)

Pandas values that can appear in a table cell or in the index are modelled by
`Pyv`: either a datetime-convertible value or a value `pd.to_datetime`
rejects.  A table is its index (the row identifiers) plus named columns. -/

structure Date where
  year : Int
  month : Nat
  day : Nat
deriving DecidableEq

/-- Calendar order on dates: lexicographic on (year, month, day). -/
def dle (a b : Date) : Prop :=
  a.year < b.year ∨
    (a.year = b.year ∧ (a.month < b.month ∨ (a.month = b.month ∧ a.day ≤ b.day)))

instance (a b : Date) : Decidable (dle a b) := by unfold dle; infer_instance

/-- A `pandas.Period` of monthly frequency is the pair (year, month). -/
def monthOf (d : Date) : Int × Nat :=
  (d.year, d.month)

/-- Order on monthly periods: lexicographic on (year, month). -/
def mle (a b : Int × Nat) : Prop :=
  a.1 < b.1 ∨ (a.1 = b.1 ∧ a.2 ≤ b.2)

/-- Strict order on monthly periods. -/
def mlt (a b : Int × Nat) : Prop :=
  a.1 < b.1 ∨ (a.1 = b.1 ∧ a.2 < b.2)

instance (a b : Int × Nat) : Decidable (mle a b) := by unfold mle; infer_instance

instance (a b : Int × Nat) : Decidable (mlt a b) := by unfold mlt; infer_instance

inductive Pyv where
  | dt (d : Date)
  | other (s : String)
deriving DecidableEq

structure DataFrame where
  index : List Pyv
  cols : List (String × List Pyv)

def DataFrame.columns (X : DataFrame) : List String :=
  X.cols.map Prod.fst

/-- Column lookup `X[c]` (tables are assumed to have distinct column names,
so the first match is the column). -/
def DataFrame.getCol (X : DataFrame) (c : String) : List Pyv :=
  ((X.cols.filter (fun p => p.1 = c)).headD (c, [])).2

/-- A well-formed table: every column has one value per row. -/
def DataFrame.WF (X : DataFrame) : Prop :=
  ∀ p ∈ X.cols, p.2.length = X.index.length

/-- `pd.to_datetime` over a value sequence: succeeds with the parsed dates
when every value is datetime-convertible, raises otherwise. -/
def to_datetime (l : List Pyv) : Except PyError (List Date) :=
  if l.all (fun v => match v with | .dt _ => true | .other _ => false) then
    .ok (l.map (fun v => match v with | .dt d => d | .other _ => ⟨0, 1, 1⟩))
  else .error .valueError

structure MonthlySplit where
  time_col : String := "index"

/-- Time-value resolution, written identically at lines 168–173 of
`get_n_splits` and lines 190–195 of `split`: use the index when `time_col`
is the sentinel `'index'`, otherwise require the named column to exist and
convert it. -/
def MonthlySplit.timeData (s : MonthlySplit) (X : DataFrame) :
    Except PyError (List Date) :=
  if s.time_col = "index" then to_datetime X.index
  else if X.columns.contains s.time_col = false then .error .valueError
  else to_datetime (X.getCol s.time_col)

/-- Minimum of `d :: l` under calendar order (`Series.min`). -/
def listMinD (d : Date) (l : List Date) : Date :=
  l.foldl (fun acc x => if dle x acc then x else acc) d

/-- Maximum of `d :: l` under calendar order (`Series.max`). -/
def listMaxD (d : Date) (l : List Date) : Date :=
  l.foldl (fun acc x => if dle acc x then x else acc) d

/-- `get_n_splits` (lines 165–185): resolve the time values, sort them, take
the earliest and latest, and return the month difference
`diff_year * 12 + diff_month`, floored at zero.  On an empty table pandas
`min`/`max` give `NaT` and the arithmetic produces `NaN`; that degenerate
value is modelled as an error and no theorem exercises it. -/
def MonthlySplit.get_n_splits (s : MonthlySplit) (X : DataFrame) :
    Except PyError Int := do
  let time_data ← s.timeData X
  let sorted := List.insertionSort dle time_data
  match sorted with
  | [] => Except.error PyError.natError
  | d :: rest =>
    let first_date := listMinD d rest
    let last_date := listMaxD d rest
    let diff_month : Int := (last_date.month : Int) - (first_date.month : Int)
    let diff_year : Int := last_date.year - first_date.year
    pure (max (diff_year * 12 + diff_month) 0)

/-- `np.argsort`/`Series.argsort` over resolved time values: the positions
`0..n-1` sorted by the date at that position (stable). -/
def argsortD (ds : List Date) : List Nat :=
  List.insertionSort (fun i j => dle (ds.getD i ⟨0, 1, 1⟩) (ds.getD j ⟨0, 1, 1⟩))
    (List.range ds.length)

/-- Boolean-mask selection `ids[ms == m]`: the identifiers at the positions
whose month equals `m`. -/
def maskSelect (ids : List Pyv) (ms : List (Int × Nat)) (m : Int × Nat) :
    List Pyv :=
  ((ids.zip ms).filter (fun p => p.2 = m)).map Prod.fst

/-- `split` (lines 187–212): resolve the time values, argsort them, reorder
the table (`X.iloc[sorted_indices]`, line 199), then at line 200 evaluate
`time_data.iloc[sorted_indices]`.  In the `time_col = 'index'` branch
`time_data` is `pd.to_datetime(X.index)`, a `DatetimeIndex`, and pandas
`Index` objects have no `iloc` attribute, so that branch raises
`AttributeError` before anything is yielded.  In the column branch
`time_data` is a `Series`, and the code groups the sorted rows by monthly
period and yields, for consecutive distinct months, the identifiers of the
first month's rows and of the second month's rows. -/
def MonthlySplit.split (s : MonthlySplit) (X : DataFrame) :
    Except PyError (List (List Pyv × List Pyv)) := do
  let time_data ← s.timeData X
  let sorted_indices := argsortD time_data
  let X_sorted_index := sorted_indices.map (fun i => X.index.getD i (.other ""))
  if s.time_col = "index" then Except.error PyError.attributeError
  else
    let time_sorted := sorted_indices.map (fun i => time_data.getD i ⟨0, 1, 1⟩)
    let months := time_sorted.map monthOf
    let unique_months := orderedUnique months
    pure ((List.range (unique_months.length - 1)).map (fun i =>
      (maskSelect X_sorted_index months (unique_months.getD i (0, 0)),
        maskSelect X_sorted_index months (unique_months.getD (i + 1) (0, 0)))))

/-! ## Order lemmas for dates and monthly periods -/

theorem dle_refl (a : Date) : dle a a := by
  unfold dle; omega

theorem dle_trans {a b c : Date} (h1 : dle a b) (h2 : dle b c) : dle a c := by
  unfold dle at *; omega

theorem dle_total (a b : Date) : dle a b ∨ dle b a := by
  unfold dle; omega

theorem dle_antisymm {a b : Date} (h1 : dle a b) (h2 : dle b a) : a = b := by
  obtain ⟨y1, m1, d1⟩ := a
  obtain ⟨y2, m2, d2⟩ := b
  unfold dle at h1 h2
  dsimp only at h1 h2
  simp only [Date.mk.injEq]
  omega

theorem mle_of_dle {a b : Date} (h : dle a b) : mle (monthOf a) (monthOf b) := by
  obtain ⟨y1, m1, d1⟩ := a
  obtain ⟨y2, m2, d2⟩ := b
  unfold dle at h
  unfold mle monthOf
  dsimp only at h ⊢
  omega

theorem mle_refl (a : Int × Nat) : mle a a := by
  unfold mle; omega

theorem mlt_of_mle_of_ne {a b : Int × Nat} (h1 : mle a b) (h2 : a ≠ b) :
    mlt a b := by
  obtain ⟨y1, m1⟩ := a
  obtain ⟨y2, m2⟩ := b
  simp only [ne_eq, Prod.mk.injEq, not_and] at h2
  unfold mle at h1
  unfold mlt
  dsimp only at h1 ⊢
  by_cases hy : y1 = y2
  · subst hy
    right
    exact ⟨rfl, by omega⟩
  · omega

theorem mlt_irrefl (a : Int × Nat) : ¬ mlt a a := by
  unfold mlt; omega

theorem mlt_asymm {a b : Int × Nat} (h : mlt a b) : ¬ mlt b a := by
  unfold mlt at *; omega

/-! ## Lemmas about `orderedUnique` -/

theorem mem_insertUnique {α : Type} [DecidableEq α] (acc : List α) (b a : α) :
    a ∈ insertUnique acc b ↔ a ∈ acc ∨ a = b := by
  unfold insertUnique
  by_cases hb : b ∈ acc
  · simp only [hb, if_true]
    constructor
    · exact fun h => Or.inl h
    · rintro (h | rfl)
      · exact h
      · exact hb
  · simp [hb]

theorem mem_foldl_insertUnique {α : Type} [DecidableEq α] (l : List α) :
    ∀ (acc : List α) (a : α), a ∈ l.foldl insertUnique acc ↔ a ∈ acc ∨ a ∈ l := by
  induction l with
  | nil => simp
  | cons x l ih =>
    intro acc a
    simp only [List.foldl_cons, ih, mem_insertUnique, List.mem_cons]
    tauto

theorem mem_orderedUnique {α : Type} [DecidableEq α] (l : List α) (a : α) :
    a ∈ orderedUnique l ↔ a ∈ l := by
  unfold orderedUnique
  rw [mem_foldl_insertUnique]
  simp

theorem nodup_insertUnique {α : Type} [DecidableEq α] {acc : List α} (b : α)
    (h : acc.Nodup) : (insertUnique acc b).Nodup := by
  unfold insertUnique
  by_cases hb : b ∈ acc
  · simpa [hb] using h
  · simp only [hb, if_false]
    simp [List.nodup_append, h, hb]

theorem nodup_foldl_insertUnique {α : Type} [DecidableEq α] (l : List α) :
    ∀ acc : List α, acc.Nodup → (l.foldl insertUnique acc).Nodup := by
  induction l with
  | nil => exact fun acc h => h
  | cons x l ih =>
    intro acc hacc
    exact ih _ (nodup_insertUnique x hacc)

theorem nodup_orderedUnique {α : Type} [DecidableEq α] (l : List α) :
    (orderedUnique l).Nodup :=
  nodup_foldl_insertUnique l [] List.nodup_nil

theorem sorted_foldl_insertUnique {α : Type} [DecidableEq α]
    (R : α → α → Prop) (l : List α) :
    ∀ acc : List α, List.Pairwise R acc → List.Pairwise R l →
      (∀ x ∈ acc, ∀ y ∈ l, R x y) →
      List.Pairwise R (l.foldl insertUnique acc) := by
  induction l with
  | nil => exact fun acc hacc _ _ => hacc
  | cons b tl ih =>
    intro acc hacc hl hcross
    simp only [List.foldl_cons]
    have hyl : ∀ z ∈ tl, R b z := (List.pairwise_cons.mp hl).1
    refine ih (insertUnique acc b) ?_ (List.pairwise_cons.mp hl).2 ?_
    · unfold insertUnique
      by_cases hy : b ∈ acc
      · simpa [hy] using hacc
      · simp only [hy, if_false]
        rw [List.pairwise_append]
        refine ⟨hacc, List.pairwise_singleton _ _, ?_⟩
        intro x hx z hz
        rw [List.mem_singleton] at hz
        rw [hz]
        exact hcross x hx b (List.mem_cons_self b tl)
    · intro x hx z hz
      rcases (mem_insertUnique acc b x).mp hx with hx' | rfl
      · exact hcross x hx' z (List.mem_cons_of_mem _ hz)
      · exact hyl z hz

theorem sorted_orderedUnique {α : Type} [DecidableEq α]
    {R : α → α → Prop} {l : List α} (hl : List.Pairwise R l) :
    List.Pairwise R (orderedUnique l) :=
  sorted_foldl_insertUnique R l [] List.Pairwise.nil hl (by simp)

/-! ## List utility lemmas -/

theorem map_range_getD {α : Type} (l : List α) (d : α) :
    (List.range l.length).map (fun i => l.getD i d) = l := by
  apply List.ext_getElem
  · simp
  · intro i h1 h2
    simp only [List.getElem_map, List.getElem_range]
    rw [List.getD_eq_getElem]

theorem map_range_pair {α β : Type} (l1 : List α) (l2 : List β) (d1 : α)
    (d2 : β) (n : Nat) (h1 : l1.length = n) (h2 : l2.length = n) :
    (List.range n).map (fun i => (l1.getD i d1, l2.getD i d2)) = l1.zip l2 := by
  apply List.ext_getElem
  · simp [List.length_zip, h1, h2]
  · intro i hi hi'
    have hi1 : i < l1.length := by
      simp only [List.length_zip, h1, h2] at hi'
      omega
    have hi2 : i < l2.length := by
      simp only [List.length_zip, h1, h2] at hi'
      omega
    simp only [List.getElem_map, List.getElem_range, List.getElem_zip]
    rw [List.getD_eq_getElem _ _ hi1, List.getD_eq_getElem _ _ hi2]

/-! ## Lemmas about the fold-based minimum and maximum of dates -/

theorem listMinD_cons (d x : Date) (l : List Date) :
    listMinD d (x :: l) = listMinD (if dle x d then x else d) l := rfl

theorem listMinD_mem : ∀ (l : List Date) (d : Date), listMinD d l ∈ d :: l := by
  intro l
  induction l with
  | nil => intro d; simp [listMinD]
  | cons x l ih =>
    intro d
    rw [listMinD_cons]
    by_cases hx : dle x d
    · rw [if_pos hx]
      rcases List.mem_cons.mp (ih x) with h | h
      · rw [h]
        exact List.mem_cons_of_mem _ (List.mem_cons_self _ _)
      · exact List.mem_cons_of_mem _ (List.mem_cons_of_mem _ h)
    · rw [if_neg hx]
      rcases List.mem_cons.mp (ih d) with h | h
      · rw [h]
        exact List.mem_cons_self _ _
      · exact List.mem_cons_of_mem _ (List.mem_cons_of_mem _ h)

theorem listMinD_le :
    ∀ (l : List Date) (d : Date), ∀ x ∈ d :: l, dle (listMinD d l) x := by
  intro l
  induction l with
  | nil =>
    intro d x hx
    rw [List.mem_singleton] at hx
    rw [hx]
    exact dle_refl _
  | cons b l ih =>
    intro d x hx
    rw [listMinD_cons]
    by_cases hb : dle b d
    · rw [if_pos hb]
      rcases List.mem_cons.mp hx with h | h
      · rw [h]
        exact dle_trans (ih b b (List.mem_cons_self _ _)) hb
      · exact ih b x h
    · rw [if_neg hb]
      rcases List.mem_cons.mp hx with h | h
      · rw [h]
        exact ih d d (List.mem_cons_self _ _)
      · rcases List.mem_cons.mp h with h2 | h2
        · rw [h2]
          rcases dle_total b d with hc | hc
          · exact absurd hc hb
          · exact dle_trans (ih d d (List.mem_cons_self _ _)) hc
        · exact ih d x (List.mem_cons_of_mem _ h2)

theorem listMaxD_cons (d x : Date) (l : List Date) :
    listMaxD d (x :: l) = listMaxD (if dle d x then x else d) l := rfl

theorem listMaxD_mem : ∀ (l : List Date) (d : Date), listMaxD d l ∈ d :: l := by
  intro l
  induction l with
  | nil => intro d; simp [listMaxD]
  | cons x l ih =>
    intro d
    rw [listMaxD_cons]
    by_cases hx : dle d x
    · rw [if_pos hx]
      rcases List.mem_cons.mp (ih x) with h | h
      · rw [h]
        exact List.mem_cons_of_mem _ (List.mem_cons_self _ _)
      · exact List.mem_cons_of_mem _ (List.mem_cons_of_mem _ h)
    · rw [if_neg hx]
      rcases List.mem_cons.mp (ih d) with h | h
      · rw [h]
        exact List.mem_cons_self _ _
      · exact List.mem_cons_of_mem _ (List.mem_cons_of_mem _ h)

theorem listMaxD_ge :
    ∀ (l : List Date) (d : Date), ∀ x ∈ d :: l, dle x (listMaxD d l) := by
  intro l
  induction l with
  | nil =>
    intro d x hx
    rw [List.mem_singleton] at hx
    rw [hx]
    exact dle_refl _
  | cons b l ih =>
    intro d x hx
    rw [listMaxD_cons]
    by_cases hb : dle d b
    · rw [if_pos hb]
      rcases List.mem_cons.mp hx with h | h
      · rw [h]
        exact dle_trans hb (ih b b (List.mem_cons_self _ _))
      · exact ih b x h
    · rw [if_neg hb]
      rcases List.mem_cons.mp hx with h | h
      · rw [h]
        exact ih d d (List.mem_cons_self _ _)
      · rcases List.mem_cons.mp h with h2 | h2
        · rw [h2]
          rcases dle_total d b with hc | hc
          · exact absurd hc hb
          · exact dle_trans hc (ih d d (List.mem_cons_self _ _))
        · exact ih d x (List.mem_cons_of_mem _ h2)

/-! ## Resolution lemmas and the error-handling theorems -/

theorem to_datetime_err {l : List Pyv}
    (h : ¬ ∀ v ∈ l, (match v with | .dt _ => true | .other _ => false) = true) :
    to_datetime l = .error .valueError := by
  unfold to_datetime
  rw [if_neg]
  simpa using h

theorem to_datetime_length {l : List Pyv} {ds : List Date}
    (h : to_datetime l = .ok ds) : ds.length = l.length := by
  unfold to_datetime at h
  by_cases hc : l.all (fun v => match v with | .dt _ => true | .other _ => false)
  · rw [if_pos hc] at h
    cases h
    simp
  · rw [if_neg hc] at h
    cases h

theorem timeData_col_missing {s : MonthlySplit} {X : DataFrame}
    (h1 : s.time_col ≠ "index") (h2 : s.time_col ∉ X.columns) :
    s.timeData X = .error .valueError := by
  unfold MonthlySplit.timeData
  rw [if_neg h1, if_pos]
  simpa using h2

theorem timeData_col_ok {s : MonthlySplit} {X : DataFrame}
    (h1 : s.time_col ≠ "index") (h2 : s.time_col ∈ X.columns) :
    s.timeData X = to_datetime (X.getCol s.time_col) := by
  unfold MonthlySplit.timeData
  rw [if_neg h1, if_neg]
  simpa using h2

theorem get_n_splits_timeData_err {s : MonthlySplit} {X : DataFrame}
    {e : PyError} (h : s.timeData X = .error e) :
    s.get_n_splits X = .error e := by
  unfold MonthlySplit.get_n_splits
  rw [h]
  rfl

theorem split_timeData_err {s : MonthlySplit} {X : DataFrame} {e : PyError}
    (h : s.timeData X = .error e) : s.split X = .error e := by
  unfold MonthlySplit.split
  rw [h]
  rfl

/-- C8: naming a time column that the table does not have makes both
`get_n_splits` and `split` raise the `ValueError` of lines 172/194 — the
membership test `self.time_col not in X.columns` fires before anything else
is computed. -/
theorem C8_missing_column_raises (s : MonthlySplit) (X : DataFrame)
    (h1 : s.time_col ≠ "index") (h2 : s.time_col ∉ X.columns) :
    s.get_n_splits X = .error .valueError ∧ s.split X = .error .valueError :=
  ⟨get_n_splits_timeData_err (timeData_col_missing h1 h2),
    split_timeData_err (timeData_col_missing h1 h2)⟩

theorem C8_missing_column_raises_witness :
    (("date" : String) ≠ "index"
        ∧ "date" ∉ (DataFrame.mk [.other "r0"] [("a", [.other "v"])]).columns)
      ∧ ((MonthlySplit.mk "date").get_n_splits
            (DataFrame.mk [.other "r0"] [("a", [.other "v"])])
          = .error .valueError
        ∧ (MonthlySplit.mk "date").split
            (DataFrame.mk [.other "r0"] [("a", [.other "v"])])
          = .error .valueError) :=
  ⟨⟨by decide, by decide⟩,
    C8_missing_column_raises (MonthlySplit.mk "date")
      (DataFrame.mk [.other "r0"] [("a", [.other "v"])]) (by decide) (by decide)⟩

/-- C9: when the designated time source (index, or an existing named column)
contains a value `pd.to_datetime` cannot convert, both `split` and
`get_n_splits` raise the conversion `ValueError`, since both start by
converting the whole time source (lines 169/173 and 191/195). -/
theorem C9_unconvertible_values_raise (s : MonthlySplit) (X : DataFrame)
    (h : (s.time_col = "index"
          ∧ ¬ ∀ v ∈ X.index, (match v with | .dt _ => true | .other _ => false) = true)
        ∨ (s.time_col ≠ "index" ∧ s.time_col ∈ X.columns
          ∧ ¬ ∀ v ∈ X.getCol s.time_col,
              (match v with | .dt _ => true | .other _ => false) = true)) :
    s.get_n_splits X = .error .valueError ∧ s.split X = .error .valueError := by
  have herr : s.timeData X = .error .valueError := by
    rcases h with ⟨hidx, hbad⟩ | ⟨hcol, hmem, hbad⟩
    · unfold MonthlySplit.timeData
      rw [if_pos hidx]
      exact to_datetime_err hbad
    · rw [timeData_col_ok hcol hmem]
      exact to_datetime_err hbad
  exact ⟨get_n_splits_timeData_err herr, split_timeData_err herr⟩

theorem C9_unconvertible_values_raise_witness :
    ((("t" : String) = "index"
          ∧ ¬ ∀ v ∈ (DataFrame.mk [.other "r0"] [("t", [.other "hello"])]).index,
              (match v with | .dt _ => true | .other _ => false) = true)
        ∨ (("t" : String) ≠ "index"
          ∧ "t" ∈ (DataFrame.mk [.other "r0"] [("t", [.other "hello"])]).columns
          ∧ ¬ ∀ v ∈ (DataFrame.mk [.other "r0"]
                [("t", [.other "hello"])]).getCol "t",
              (match v with | .dt _ => true | .other _ => false) = true))
      ∧ ((MonthlySplit.mk "t").get_n_splits
            (DataFrame.mk [.other "r0"] [("t", [.other "hello"])])
          = .error .valueError
        ∧ (MonthlySplit.mk "t").split
            (DataFrame.mk [.other "r0"] [("t", [.other "hello"])])
          = .error .valueError) :=
  ⟨Or.inr ⟨by decide, by decide, by decide⟩,
    C9_unconvertible_values_raise (MonthlySplit.mk "t")
      (DataFrame.mk [.other "r0"] [("t", [.other "hello"])])
      (Or.inr ⟨by decide, by decide, by decide⟩)⟩

/-! ## Concrete tables used by the monthly-split theorems -/

/-- A two-month table whose timestamps appear both as its index and as the
column `t`, so the sentinel `'index'` and the column name designate the same
time values. -/
def janFebTable : DataFrame :=
  ⟨[.dt ⟨2021, 1, 10⟩, .dt ⟨2021, 2, 10⟩],
    [("t", [.dt ⟨2021, 1, 10⟩, .dt ⟨2021, 2, 10⟩])]⟩

/-- The gap-free five-month table (Nov 2020 .. Mar 2021) with its timestamps
as the index. -/
def fiveMonthIndexTable : DataFrame :=
  ⟨[.dt ⟨2020, 11, 5⟩, .dt ⟨2020, 12, 5⟩, .dt ⟨2021, 1, 5⟩, .dt ⟨2021, 2, 5⟩,
      .dt ⟨2021, 3, 5⟩],
    [("a", [.other "x", .other "x", .other "x", .other "x", .other "x"])]⟩

/-- The gap-free five-month table with opaque row identifiers and its
timestamps in the column `t`. -/
def fiveMonthColTable : DataFrame :=
  ⟨[.other "r0", .other "r1", .other "r2", .other "r3", .other "r4"],
    [("t", [.dt ⟨2020, 11, 5⟩, .dt ⟨2020, 12, 5⟩, .dt ⟨2021, 1, 5⟩,
      .dt ⟨2021, 2, 5⟩, .dt ⟨2021, 3, 5⟩])]⟩

/-- C2: `split` with the sentinel `'index'` does not succeed on a table whose
index holds timestamps: line 200 evaluates `time_data.iloc[sorted_indices]`
on the `DatetimeIndex` produced at line 191, and pandas `Index` objects have
no `iloc` attribute, so an `AttributeError` is raised.  On the same time
values supplied through the named column `t` (where `time_data` is a
`Series`, which does have `iloc`), `split` succeeds and yields the
January/February pair. -/
theorem C2_index_sentinel_split_crashes :
    (MonthlySplit.mk "index").split janFebTable = .error .attributeError
      ∧ (MonthlySplit.mk "t").split janFebTable
        = .ok [([Pyv.dt ⟨2021, 1, 10⟩], [Pyv.dt ⟨2021, 2, 10⟩])] :=
  ⟨rfl, rfl⟩

/-- C3 counterexample: on the five-month November-to-March table with its
timestamps in the index, `split` configured with the sentinel `'index'`
raises an `AttributeError` (pandas `Index` has no `iloc`, line 200) instead
of yielding the four month pairs the claim requires. -/
theorem C3_counterexample_index_source :
    (MonthlySplit.mk "index").split fiveMonthIndexTable
      = .error .attributeError :=
  rfl

theorem exceptBind_ok {ε α β : Type} (a : α) (f : α → Except ε β) :
    (Except.ok a >>= f) = f a := rfl

/-- C4: whenever the time values resolve, `get_n_splits` returns the
difference in `year * 12 + month` between the latest and the earliest
timestamp, floored at zero: the code computes
`(last.year - first.year) * 12 + (last.month - first.month)` over the
minimum and maximum of the resolved time values and takes `max(·, 0)`. -/
theorem C4_get_n_splits_month_span (s : MonthlySplit) (X : DataFrame)
    (ds : List Date) (hres : s.timeData X = .ok ds)
    (dfirst dlast : Date) (hfm : dfirst ∈ ds) (hlm : dlast ∈ ds)
    (hfb : ∀ d ∈ ds, dle dfirst d) (hlb : ∀ d ∈ ds, dle d dlast) :
    s.get_n_splits X
      = .ok (max ((dlast.year * 12 + (dlast.month : Int))
          - (dfirst.year * 12 + (dfirst.month : Int))) 0) := by
  unfold MonthlySplit.get_n_splits
  rw [hres, exceptBind_ok]
  rcases hsort : List.insertionSort dle ds with _ | ⟨d, rest⟩
  · have hperm : List.Perm ([] : List Date) ds := by
      rw [← hsort]
      exact List.perm_insertionSort dle ds
    rw [hperm.symm.eq_nil] at hfm
    cases hfm
  · have hperm : List.Perm (d :: rest) ds := by
      rw [← hsort]
      exact List.perm_insertionSort dle ds
    have hmineq : listMinD d rest = dfirst :=
      dle_antisymm (listMinD_le rest d dfirst (hperm.mem_iff.mpr hfm))
        (hfb _ (hperm.mem_iff.mp (listMinD_mem rest d)))
    have hmaxeq : listMaxD d rest = dlast :=
      dle_antisymm (hlb _ (hperm.mem_iff.mp (listMaxD_mem rest d)))
        (listMaxD_ge rest d dlast (hperm.mem_iff.mpr hlm))
    dsimp only
    rw [hmineq, hmaxeq]
    congr 1
    omega

theorem C4_get_n_splits_month_span_witness :
    ((MonthlySplit.mk "index").timeData fiveMonthIndexTable
        = .ok [⟨2020, 11, 5⟩, ⟨2020, 12, 5⟩, ⟨2021, 1, 5⟩, ⟨2021, 2, 5⟩,
          ⟨2021, 3, 5⟩]
      ∧ (⟨2020, 11, 5⟩ : Date)
          ∈ [(⟨2020, 11, 5⟩ : Date), ⟨2020, 12, 5⟩, ⟨2021, 1, 5⟩, ⟨2021, 2, 5⟩,
            ⟨2021, 3, 5⟩]
      ∧ (⟨2021, 3, 5⟩ : Date)
          ∈ [(⟨2020, 11, 5⟩ : Date), ⟨2020, 12, 5⟩, ⟨2021, 1, 5⟩, ⟨2021, 2, 5⟩,
            ⟨2021, 3, 5⟩])
      ∧ (MonthlySplit.mk "index").get_n_splits fiveMonthIndexTable = .ok 4 := by
  constructor
  · exact ⟨rfl, by decide, by decide⟩
  · have h := C4_get_n_splits_month_span (MonthlySplit.mk "index")
      fiveMonthIndexTable
      [⟨2020, 11, 5⟩, ⟨2020, 12, 5⟩, ⟨2021, 1, 5⟩, ⟨2021, 2, 5⟩, ⟨2021, 3, 5⟩]
      rfl ⟨2020, 11, 5⟩ ⟨2021, 3, 5⟩ (by decide) (by decide) (by decide)
      (by decide)
    rw [h]
    rfl

/-! ## Characterization of `split` on a named time column -/

/-- The reordered time values `time_sorted` mapped to monthly periods
(line 203/206/207 of the source work with `time_sorted.dt.to_period('M')`). -/
def sortedMonths (ds : List Date) : List (Int × Nat) :=
  ((argsortD ds).map (fun i => ds.getD i ⟨0, 1, 1⟩)).map monthOf

/-- The reordered row identifiers `X_sorted.index`. -/
def sortedIds (X : DataFrame) (ds : List Date) : List Pyv :=
  (argsortD ds).map (fun i => X.index.getD i (.other ""))

/-- `unique_months` of line 203. -/
def uniqueMonths (ds : List Date) : List (Int × Nat) :=
  orderedUnique (sortedMonths ds)

/-- The value of `split` on a resolvable named time column, as a pure
function of the table and the resolved dates. -/
def splitPairs (X : DataFrame) (ds : List Date) :
    List (List Pyv × List Pyv) :=
  (List.range ((uniqueMonths ds).length - 1)).map (fun i =>
    (maskSelect (sortedIds X ds) (sortedMonths ds)
        ((uniqueMonths ds).getD i (0, 0)),
      maskSelect (sortedIds X ds) (sortedMonths ds)
        ((uniqueMonths ds).getD (i + 1) (0, 0))))

/-- Specification-side selection: the identifiers of the rows whose time
value falls in month `m`, in table order. -/
def monthRows (X : DataFrame) (ds : List Date) (m : Int × Nat) : List Pyv :=
  ((X.index.zip (ds.map monthOf)).filter (fun p => p.2 = m)).map Prod.fst

theorem split_col_eq {tc : String} {X : DataFrame} {ds : List Date}
    (htc : tc ≠ "index") (hmem : tc ∈ X.columns)
    (hconv : to_datetime (X.getCol tc) = .ok ds) :
    (MonthlySplit.mk tc).split X = .ok (splitPairs X ds) := by
  unfold MonthlySplit.split
  have hres : (MonthlySplit.mk tc).timeData X = .ok ds := by
    rw [timeData_col_ok htc hmem]
    exact hconv
  rw [hres, exceptBind_ok]
  dsimp only
  rw [if_neg htc]
  rfl

theorem argsortD_perm (ds : List Date) :
    List.Perm (argsortD ds) (List.range ds.length) :=
  List.perm_insertionSort _ _

theorem sortedMonths_perm (ds : List Date) :
    List.Perm (sortedMonths ds) (ds.map monthOf) := by
  unfold sortedMonths
  refine List.Perm.map monthOf ?_
  have h := (argsortD_perm ds).map (fun i => ds.getD i ⟨0, 1, 1⟩)
  rw [map_range_getD ds ⟨0, 1, 1⟩] at h
  exact h

theorem argsortD_sorted (ds : List Date) :
    List.Pairwise (fun i j => dle (ds.getD i ⟨0, 1, 1⟩) (ds.getD j ⟨0, 1, 1⟩))
      (argsortD ds) := by
  haveI : IsTotal Nat (fun i j => dle (ds.getD i ⟨0, 1, 1⟩) (ds.getD j ⟨0, 1, 1⟩)) :=
    ⟨fun a b => dle_total _ _⟩
  haveI : IsTrans Nat (fun i j => dle (ds.getD i ⟨0, 1, 1⟩) (ds.getD j ⟨0, 1, 1⟩)) :=
    ⟨fun a b c h1 h2 => dle_trans h1 h2⟩
  exact List.sorted_insertionSort _ _

theorem sortedMonths_sorted (ds : List Date) :
    List.Pairwise mle (sortedMonths ds) := by
  unfold sortedMonths
  rw [List.map_map]
  exact (argsortD_sorted ds).map _ (fun a b h => mle_of_dle h)

theorem uniqueMonths_mem (ds : List Date) (m : Int × Nat) :
    m ∈ uniqueMonths ds ↔ m ∈ ds.map monthOf := by
  unfold uniqueMonths
  rw [mem_orderedUnique]
  exact (sortedMonths_perm ds).mem_iff

theorem uniqueMonths_pairwise (ds : List Date) :
    List.Pairwise mlt (uniqueMonths ds) := by
  have h1 : List.Pairwise mle (uniqueMonths ds) :=
    sorted_orderedUnique (sortedMonths_sorted ds)
  have h2 : List.Pairwise (fun a b => a ≠ b) (uniqueMonths ds) :=
    nodup_orderedUnique _
  exact (h1.and h2).imp (fun h => mlt_of_mle_of_ne h.1 h.2)

theorem zip_sorted_perm (X : DataFrame) (ds : List Date)
    (hlen : X.index.length = ds.length) :
    List.Perm ((sortedIds X ds).zip (sortedMonths ds))
      (X.index.zip (ds.map monthOf)) := by
  unfold sortedIds sortedMonths
  rw [List.map_map, List.zip_map']
  have h := (argsortD_perm ds).map
    (fun i => (X.index.getD i (.other ""), monthOf (ds.getD i ⟨0, 1, 1⟩)))
  refine h.trans ?_
  have hfun : (fun i => (X.index.getD i (Pyv.other ""),
        monthOf (ds.getD i (⟨0, 1, 1⟩ : Date))))
      = (fun i => (X.index.getD i (Pyv.other ""),
        (ds.map monthOf).getD i (monthOf (⟨0, 1, 1⟩ : Date)))) := by
    funext i
    rw [List.getD_map]
  rw [hfun, map_range_pair X.index (ds.map monthOf) (.other "")
    (monthOf ⟨0, 1, 1⟩) ds.length hlen (by simp)]

theorem maskSelect_perm (X : DataFrame) (ds : List Date)
    (hlen : X.index.length = ds.length) (m : Int × Nat) :
    List.Perm (maskSelect (sortedIds X ds) (sortedMonths ds) m)
      (monthRows X ds m) := by
  unfold maskSelect monthRows
  exact ((zip_sorted_perm X ds hlen).filter _).map _

theorem getD_range_map {β : Type} (n i : Nat) (f : Nat → β) (d : β)
    (h : i < n) : (((List.range n).map f).getD i d) = f i := by
  have hlen2 : i < ((List.range n).map f).length := by simpa using h
  rw [List.getD_eq_getElem _ _ hlen2]
  simp

theorem splitPairs_length (X : DataFrame) (ds : List Date) :
    (splitPairs X ds).length = (uniqueMonths ds).length - 1 := by
  unfold splitPairs
  simp

theorem splitPairs_getD (X : DataFrame) (ds : List Date) (i : Nat)
    (h : i + 1 < (uniqueMonths ds).length) :
    (splitPairs X ds).getD i ([], [])
      = (maskSelect (sortedIds X ds) (sortedMonths ds)
          ((uniqueMonths ds).getD i (0, 0)),
        maskSelect (sortedIds X ds) (sortedMonths ds)
          ((uniqueMonths ds).getD (i + 1) (0, 0))) := by
  unfold splitPairs
  rw [getD_range_map]
  omega

theorem monthRows_mem (X : DataFrame) (ds : List Date)
    (hlen : X.index.length = ds.length) (m : Int × Nat) (v : Pyv) :
    v ∈ monthRows X ds m
      ↔ ∃ k, k < X.index.length ∧ X.index.getD k (.other "") = v
          ∧ monthOf (ds.getD k ⟨0, 1, 1⟩) = m := by
  unfold monthRows
  rw [List.mem_map]
  constructor
  · rintro ⟨p, hp, hv⟩
    rw [List.mem_filter] at hp
    obtain ⟨hpz, hpm⟩ := hp
    rw [List.mem_iff_getElem] at hpz
    obtain ⟨k, hk, hkp⟩ := hpz
    have hk1 : k < X.index.length := by
      simp only [List.length_zip, List.length_map] at hk
      omega
    have hk2 : k < ds.length := by
      simp only [List.length_zip, List.length_map] at hk
      omega
    refine ⟨k, hk1, ?_, ?_⟩
    · rw [List.getD_eq_getElem _ _ hk1]
      rw [List.getElem_zip] at hkp
      rw [← hv, ← hkp]
    · rw [List.getElem_zip] at hkp
      have hk3 : k < (ds.map monthOf).length := by simpa using hk2
      have h2 : p.2 = (ds.map monthOf)[k] := by
        rw [← hkp]
      rw [List.getElem_map] at h2
      rw [List.getD_eq_getElem _ _ hk2, ← h2]
      simpa using hpm
  · rintro ⟨k, hk, hv, hm⟩
    have hk2 : k < ds.length := by omega
    have hk3 : k < (ds.map monthOf).length := by simpa using hk2
    have hkz : k < (X.index.zip (ds.map monthOf)).length := by
      simp only [List.length_zip, List.length_map]
      omega
    refine ⟨(X.index[k], (ds.map monthOf)[k]), ?_, ?_⟩
    · rw [List.mem_filter]
      constructor
      · rw [List.mem_iff_getElem]
        exact ⟨k, hkz, by rw [List.getElem_zip]⟩
      · simp only [List.getElem_map]
        rw [← List.getD_eq_getElem ds _ hk2, hm]
        simp
    · rw [← List.getD_eq_getElem X.index _ hk, hv]

/-- C3 (amended to a named time column; the sentinel `'index'` raises, see
the counterexample theorem): on a table whose time values resolve from a
named column, `split` succeeds and yields exactly one (train, test) pair per
consecutive pair of the chronologically ordered distinct months present:
there is a strictly increasing list `U` of exactly the months present in the
data such that `split` yields `U.length - 1` pairs, the `i`-th pair holding
the row identifiers of month `U i` as train and those of month `U (i+1)` as
test. -/
theorem C3_split_consecutive_month_pairs (tc : String) (X : DataFrame)
    (ds : List Date) (htc : tc ≠ "index") (hmem : tc ∈ X.columns)
    (hconv : to_datetime (X.getCol tc) = .ok ds)
    (hlen : X.index.length = ds.length) :
    ∃ U pairs, (MonthlySplit.mk tc).split X = .ok pairs
      ∧ List.Pairwise mlt U
      ∧ (∀ m, m ∈ U ↔ m ∈ ds.map monthOf)
      ∧ pairs.length = U.length - 1
      ∧ (∀ i, i + 1 < U.length →
          List.Perm ((pairs.getD i ([], [])).1)
            (monthRows X ds (U.getD i (0, 0)))
          ∧ List.Perm ((pairs.getD i ([], [])).2)
            (monthRows X ds (U.getD (i + 1) (0, 0)))) := by
  refine ⟨uniqueMonths ds, splitPairs X ds, split_col_eq htc hmem hconv,
    uniqueMonths_pairwise ds, uniqueMonths_mem ds, splitPairs_length X ds, ?_⟩
  intro i hi
  rw [splitPairs_getD X ds i hi]
  exact ⟨maskSelect_perm X ds hlen _, maskSelect_perm X ds hlen _⟩

theorem C3_split_consecutive_month_pairs_witness :
    (("t" : String) ≠ "index"
      ∧ "t" ∈ fiveMonthColTable.columns
      ∧ to_datetime (fiveMonthColTable.getCol "t")
          = .ok [⟨2020, 11, 5⟩, ⟨2020, 12, 5⟩, ⟨2021, 1, 5⟩, ⟨2021, 2, 5⟩,
            ⟨2021, 3, 5⟩]
      ∧ fiveMonthColTable.index.length
          = ([⟨2020, 11, 5⟩, ⟨2020, 12, 5⟩, ⟨2021, 1, 5⟩, ⟨2021, 2, 5⟩,
            ⟨2021, 3, 5⟩] : List Date).length)
    ∧ (∃ U pairs, (MonthlySplit.mk "t").split fiveMonthColTable = .ok pairs
      ∧ List.Pairwise mlt U
      ∧ (∀ m, m ∈ U ↔ m ∈ ([⟨2020, 11, 5⟩, ⟨2020, 12, 5⟩, ⟨2021, 1, 5⟩,
          ⟨2021, 2, 5⟩, ⟨2021, 3, 5⟩] : List Date).map monthOf)
      ∧ pairs.length = U.length - 1
      ∧ (∀ i, i + 1 < U.length →
          List.Perm ((pairs.getD i ([], [])).1)
            (monthRows fiveMonthColTable
              [⟨2020, 11, 5⟩, ⟨2020, 12, 5⟩, ⟨2021, 1, 5⟩, ⟨2021, 2, 5⟩,
                ⟨2021, 3, 5⟩] (U.getD i (0, 0)))
          ∧ List.Perm ((pairs.getD i ([], [])).2)
            (monthRows fiveMonthColTable
              [⟨2020, 11, 5⟩, ⟨2020, 12, 5⟩, ⟨2021, 1, 5⟩, ⟨2021, 2, 5⟩,
                ⟨2021, 3, 5⟩] (U.getD (i + 1) (0, 0))))) :=
  ⟨⟨by decide, by decide, rfl, rfl⟩,
    C3_split_consecutive_month_pairs "t" fiveMonthColTable
      [⟨2020, 11, 5⟩, ⟨2020, 12, 5⟩, ⟨2021, 1, 5⟩, ⟨2021, 2, 5⟩, ⟨2021, 3, 5⟩]
      (by decide) (by decide) rfl rfl⟩

/-! ## Supporting lemmas for the partition invariant -/

theorem nodup_getD_inj {l : List Pyv} (hnd : l.Nodup) {i j : Nat}
    (hi : i < l.length) (hj : j < l.length)
    (h : l.getD i (.other "") = l.getD j (.other "")) : i = j := by
  rw [List.getD_eq_getElem _ _ hi, List.getD_eq_getElem _ _ hj] at h
  exact (List.Nodup.getElem_inj_iff hnd).mp h

theorem pairwise_mlt_getD_inj {U : List (Int × Nat)}
    (hU : List.Pairwise mlt U) {i j : Nat} (hi : i < U.length)
    (hj : j < U.length) (h : U.getD i (0, 0) = U.getD j (0, 0)) : i = j := by
  rw [List.getD_eq_getElem _ _ hi, List.getD_eq_getElem _ _ hj] at h
  rcases Nat.lt_trichotomy i j with hij | hij | hij
  · exact absurd (List.pairwise_iff_getElem.mp hU i j hi hj hij)
      (by rw [h]; exact mlt_irrefl _)
  · exact hij
  · exact absurd (List.pairwise_iff_getElem.mp hU j i hj hi hij)
      (by rw [h]; exact mlt_irrefl _)

theorem pairwise_mlt_getD_lt {U : List (Int × Nat)}
    (hU : List.Pairwise mlt U) {i j : Nat} (hi : i < U.length)
    (hj : j < U.length)
    (h : mlt (U.getD i (0, 0)) (U.getD j (0, 0))) : i < j := by
  rcases Nat.lt_trichotomy i j with hij | hij | hij
  · exact hij
  · rw [hij] at h
    exact absurd h (mlt_irrefl _)
  · rw [List.getD_eq_getElem _ _ hi, List.getD_eq_getElem _ _ hj] at h
    exact absurd (List.pairwise_iff_getElem.mp hU j i hj hi hij) (mlt_asymm h)

theorem month_mem_uniqueMonths (ds : List Date) (k : Nat) (hk : k < ds.length) :
    ∃ j, j < (uniqueMonths ds).length
      ∧ (uniqueMonths ds).getD j (0, 0) = monthOf (ds.getD k ⟨0, 1, 1⟩) := by
  have hmem : monthOf (ds.getD k ⟨0, 1, 1⟩) ∈ ds.map monthOf := by
    refine List.mem_map.mpr ⟨ds.getD k ⟨0, 1, 1⟩, ?_, rfl⟩
    rw [List.getD_eq_getElem _ _ hk]
    exact List.getElem_mem hk
  obtain ⟨j, hj, hUj⟩ :=
    List.mem_iff_getElem.mp ((uniqueMonths_mem ds _).mpr hmem)
  exact ⟨j, hj, by rw [List.getD_eq_getElem _ _ hj]; exact hUj⟩

theorem maskSelect_mem_of_nodup (X : DataFrame) (ds : List Date)
    (hlen : X.index.length = ds.length) (hnd : X.index.Nodup) (k : Nat)
    (hk : k < X.index.length) (m : Int × Nat) :
    (X.index.getD k (.other "")
        ∈ maskSelect (sortedIds X ds) (sortedMonths ds) m)
      ↔ monthOf (ds.getD k ⟨0, 1, 1⟩) = m := by
  rw [(maskSelect_perm X ds hlen m).mem_iff, monthRows_mem X ds hlen]
  constructor
  · rintro ⟨k2, hk2, hid, hm⟩
    rw [← nodup_getD_inj hnd hk2 hk hid]
    exact hm
  · intro hm
    exact ⟨k, hk, rfl, hm⟩

theorem countP_range_eq_one (j : Nat) :
    ∀ n : Nat, j < n → (List.range n).countP (fun i => decide (i = j)) = 1 := by
  intro n
  induction n with
  | zero => omega
  | succ n ih =>
    intro hj
    rw [List.range_succ n, List.countP_append]
    by_cases h : j < n
    · rw [ih h]
      have : (List.countP (fun i => decide (i = j)) [n]) = 0 := by
        apply List.countP_eq_zero.mpr
        intro a ha
        rw [List.mem_singleton] at ha
        simp [ha]
        omega
      rw [this]
    · have hjn : j = n := by omega
      have h0 : (List.range n).countP (fun i => decide (i = j)) = 0 := by
        apply List.countP_eq_zero.mpr
        intro a ha
        rw [List.mem_range] at ha
        simp
        omega
      rw [h0, hjn]
      simp

/-- C7: on a table with distinct row identifiers whose time values resolve,
every pair yielded by `split` has disjoint train and test identifier sets,
and every row of a non-boundary month (a month with some strictly earlier
and some strictly later month present in the data) occurs as a train row in
exactly one pair, as a test row in exactly one pair, and those two pairs are
adjacent: it is the test of the pair immediately preceding the one in which
it is the train. -/
theorem C7_split_pairs_partition (tc : String) (X : DataFrame)
    (ds : List Date) (htc : tc ≠ "index") (hmem : tc ∈ X.columns)
    (hconv : to_datetime (X.getCol tc) = .ok ds)
    (hlen : X.index.length = ds.length) (hnd : X.index.Nodup)
    (pairs : List (List Pyv × List Pyv))
    (hok : (MonthlySplit.mk tc).split X = .ok pairs) :
    (∀ p ∈ pairs, ∀ v ∈ p.1, v ∉ p.2)
    ∧ (∀ k, k < X.index.length →
        (∃ k1, k1 < X.index.length
          ∧ mlt (monthOf (ds.getD k1 ⟨0, 1, 1⟩))
              (monthOf (ds.getD k ⟨0, 1, 1⟩))) →
        (∃ k2, k2 < X.index.length
          ∧ mlt (monthOf (ds.getD k ⟨0, 1, 1⟩))
              (monthOf (ds.getD k2 ⟨0, 1, 1⟩))) →
        (pairs.countP
            (fun p => decide (X.index.getD k (.other "") ∈ p.1)) = 1
        ∧ pairs.countP
            (fun p => decide (X.index.getD k (.other "") ∈ p.2)) = 1
        ∧ ∃ i, i + 1 < pairs.length
            ∧ X.index.getD k (.other "") ∈ (pairs.getD i ([], [])).2
            ∧ X.index.getD k (.other "") ∈ (pairs.getD (i + 1) ([], [])).1)) := by
  have hpairs : pairs = splitPairs X ds :=
    Except.ok.inj ((hok.symm).trans (split_col_eq htc hmem hconv))
  subst hpairs
  constructor
  · intro p hp v hv1 hv2
    unfold splitPairs at hp
    obtain ⟨i, hiR, rfl⟩ := List.mem_map.mp hp
    rw [List.mem_range] at hiR
    dsimp only at hv1 hv2
    rw [(maskSelect_perm X ds hlen _).mem_iff, monthRows_mem X ds hlen]
      at hv1 hv2
    obtain ⟨k1, hk1, hid1, hm1⟩ := hv1
    obtain ⟨k2, hk2, hid2, hm2⟩ := hv2
    have hkk : k1 = k2 := nodup_getD_inj hnd hk1 hk2 (hid1.trans hid2.symm)
    rw [hkk] at hm1
    have hUU : (uniqueMonths ds).getD i (0, 0)
        = (uniqueMonths ds).getD (i + 1) (0, 0) := hm1.symm.trans hm2
    have := pairwise_mlt_getD_inj (uniqueMonths_pairwise ds) (by omega)
      (by omega) hUU
    omega
  · intro k hk hprev hnext
    have hkd : k < ds.length := by omega
    obtain ⟨j, hjK, hUj⟩ := month_mem_uniqueMonths ds k hkd
    obtain ⟨k1, hk1, hm1⟩ := hprev
    obtain ⟨j1, hj1K, hUj1⟩ := month_mem_uniqueMonths ds k1 (by omega)
    have hlt1 : j1 < j := pairwise_mlt_getD_lt (uniqueMonths_pairwise ds)
      hj1K hjK (by rw [hUj1, hUj]; exact hm1)
    obtain ⟨k2, hk2, hm2⟩ := hnext
    obtain ⟨j2, hj2K, hUj2⟩ := month_mem_uniqueMonths ds k2 (by omega)
    have hlt2 : j < j2 := pairwise_mlt_getD_lt (uniqueMonths_pairwise ds)
      hjK hj2K (by rw [hUj, hUj2]; exact hm2)
    have hj1le : 1 ≤ j := by omega
    have hjK1 : j + 1 < (uniqueMonths ds).length := by omega
    refine ⟨?_, ?_, ?_⟩
    · unfold splitPairs
      rw [List.countP_map]
      refine (List.countP_congr ?_).trans
        (countP_range_eq_one j ((uniqueMonths ds).length - 1) (by omega))
      intro a ha
      rw [List.mem_range] at ha
      simp only [Function.comp_apply, decide_eq_true_eq]
      rw [maskSelect_mem_of_nodup X ds hlen hnd k hk]
      constructor
      · intro hma
        exact (pairwise_mlt_getD_inj (uniqueMonths_pairwise ds) hjK
          (by omega) (hUj.trans hma)).symm
      · intro haj
        rw [haj]
        exact hUj.symm
    · unfold splitPairs
      rw [List.countP_map]
      refine (List.countP_congr ?_).trans
        (countP_range_eq_one (j - 1) ((uniqueMonths ds).length - 1) (by omega))
      intro a ha
      rw [List.mem_range] at ha
      simp only [Function.comp_apply, decide_eq_true_eq]
      rw [maskSelect_mem_of_nodup X ds hlen hnd k hk]
      constructor
      · intro hma
        have := (pairwise_mlt_getD_inj (uniqueMonths_pairwise ds) hjK
          (by omega) (hUj.trans hma))
        omega
      · intro haj
        have ha1 : a + 1 = j := by omega
        rw [ha1]
        exact hUj.symm
    · refine ⟨j - 1, ?_, ?_, ?_⟩
      · rw [splitPairs_length]
        omega
      · rw [splitPairs_getD X ds (j - 1) (by omega)]
        dsimp only
        have hj11 : j - 1 + 1 = j := by omega
        rw [hj11]
        exact (maskSelect_mem_of_nodup X ds hlen hnd k hk _).mpr hUj.symm
      · have hj11 : j - 1 + 1 = j := by omega
        rw [hj11, splitPairs_getD X ds j hjK1]
        dsimp only
        exact (maskSelect_mem_of_nodup X ds hlen hnd k hk _).mpr hUj.symm

theorem C7_split_pairs_partition_witness :
    (("t" : String) ≠ "index"
      ∧ "t" ∈ fiveMonthColTable.columns
      ∧ to_datetime (fiveMonthColTable.getCol "t")
          = .ok [⟨2020, 11, 5⟩, ⟨2020, 12, 5⟩, ⟨2021, 1, 5⟩, ⟨2021, 2, 5⟩,
            ⟨2021, 3, 5⟩]
      ∧ fiveMonthColTable.index.length
          = ([⟨2020, 11, 5⟩, ⟨2020, 12, 5⟩, ⟨2021, 1, 5⟩, ⟨2021, 2, 5⟩,
            ⟨2021, 3, 5⟩] : List Date).length
      ∧ fiveMonthColTable.index.Nodup
      ∧ (MonthlySplit.mk "t").split fiveMonthColTable
          = .ok [([Pyv.other "r0"], [Pyv.other "r1"]),
              ([Pyv.other "r1"], [Pyv.other "r2"]),
              ([Pyv.other "r2"], [Pyv.other "r3"]),
              ([Pyv.other "r3"], [Pyv.other "r4"])])
    ∧ ((∀ p ∈ [([Pyv.other "r0"], [Pyv.other "r1"]),
          ([Pyv.other "r1"], [Pyv.other "r2"]),
          ([Pyv.other "r2"], [Pyv.other "r3"]),
          ([Pyv.other "r3"], [Pyv.other "r4"])], ∀ v ∈ p.1, v ∉ p.2)
      ∧ (∀ k, k < fiveMonthColTable.index.length →
          (∃ k1, k1 < fiveMonthColTable.index.length
            ∧ mlt (monthOf (([⟨2020, 11, 5⟩, ⟨2020, 12, 5⟩, ⟨2021, 1, 5⟩,
                ⟨2021, 2, 5⟩, ⟨2021, 3, 5⟩] : List Date).getD k1 ⟨0, 1, 1⟩))
                (monthOf (([⟨2020, 11, 5⟩, ⟨2020, 12, 5⟩, ⟨2021, 1, 5⟩,
                ⟨2021, 2, 5⟩, ⟨2021, 3, 5⟩] : List Date).getD k ⟨0, 1, 1⟩))) →
          (∃ k2, k2 < fiveMonthColTable.index.length
            ∧ mlt (monthOf (([⟨2020, 11, 5⟩, ⟨2020, 12, 5⟩, ⟨2021, 1, 5⟩,
                ⟨2021, 2, 5⟩, ⟨2021, 3, 5⟩] : List Date).getD k ⟨0, 1, 1⟩))
                (monthOf (([⟨2020, 11, 5⟩, ⟨2020, 12, 5⟩, ⟨2021, 1, 5⟩,
                ⟨2021, 2, 5⟩, ⟨2021, 3, 5⟩] : List Date).getD k2 ⟨0, 1, 1⟩))) →
          (([([Pyv.other "r0"], [Pyv.other "r1"]),
              ([Pyv.other "r1"], [Pyv.other "r2"]),
              ([Pyv.other "r2"], [Pyv.other "r3"]),
              ([Pyv.other "r3"], [Pyv.other "r4"])] :
                List (List Pyv × List Pyv)).countP
              (fun p =>
                decide (fiveMonthColTable.index.getD k (.other "") ∈ p.1)) = 1
          ∧ ([([Pyv.other "r0"], [Pyv.other "r1"]),
              ([Pyv.other "r1"], [Pyv.other "r2"]),
              ([Pyv.other "r2"], [Pyv.other "r3"]),
              ([Pyv.other "r3"], [Pyv.other "r4"])] :
                List (List Pyv × List Pyv)).countP
              (fun p =>
                decide (fiveMonthColTable.index.getD k (.other "") ∈ p.2)) = 1
          ∧ ∃ i, i + 1 < ([([Pyv.other "r0"], [Pyv.other "r1"]),
              ([Pyv.other "r1"], [Pyv.other "r2"]),
              ([Pyv.other "r2"], [Pyv.other "r3"]),
              ([Pyv.other "r3"], [Pyv.other "r4"])] :
                List (List Pyv × List Pyv)).length
            ∧ fiveMonthColTable.index.getD k (.other "")
                ∈ (([([Pyv.other "r0"], [Pyv.other "r1"]),
                  ([Pyv.other "r1"], [Pyv.other "r2"]),
                  ([Pyv.other "r2"], [Pyv.other "r3"]),
                  ([Pyv.other "r3"], [Pyv.other "r4"])] :
                    List (List Pyv × List Pyv)).getD i ([], [])).2
            ∧ fiveMonthColTable.index.getD k (.other "")
                ∈ (([([Pyv.other "r0"], [Pyv.other "r1"]),
                  ([Pyv.other "r1"], [Pyv.other "r2"]),
                  ([Pyv.other "r2"], [Pyv.other "r3"]),
                  ([Pyv.other "r3"], [Pyv.other "r4"])] :
                    List (List Pyv × List Pyv)).getD (i + 1) ([], [])).1))) :=
  ⟨⟨by decide, by decide, rfl, rfl, by decide, rfl⟩,
    C7_split_pairs_partition "t" fiveMonthColTable
      [⟨2020, 11, 5⟩, ⟨2020, 12, 5⟩, ⟨2021, 1, 5⟩, ⟨2021, 2, 5⟩, ⟨2021, 3, 5⟩]
      (by decide) (by decide) rfl rfl (by decide)
      [([Pyv.other "r0"], [Pyv.other "r1"]),
        ([Pyv.other "r1"], [Pyv.other "r2"]),
        ([Pyv.other "r2"], [Pyv.other "r3"]),
        ([Pyv.other "r3"], [Pyv.other "r4"])] rfl⟩
